import Mathlib

/-!
Verification of the fusion-search repository (edith3.py, the no-framework
variant, and edith.py, the pandas variant) against its natural-language
specification.

Python strings are embedded as `List Char` (`Str`); Python's `+` on strings
is `++`, `len` is `List.length`, `s.startswith(t)` is `List.isPrefixOf t s`,
and slicing `s[k:]` is `List.drop k s`.  Python's `sorted` (a stable sort
producing the unique sorted permutation for an antisymmetric total key
order) is embedded with `List.insertionSort` over the corresponding key
relation.
-/

set_option maxRecDepth 4096

namespace Edith

/-- Python strings, embedded as lists of characters. -/
abbrev Str := List Char

/-- Coercion from a Lean string literal to the embedded string type. -/
def str (s : String) : Str := s.data

/-- Python's lexicographic `<=` on strings (code-point comparison). -/
def lexLe : Str → Str → Bool
  | [], _ => true
  | _ :: _, [] => false
  | a :: as, b :: bs => if a < b then true else if b < a then false else lexLe as bs

/-- The tuple key `(len(s), s)` comparison used by
`sorted(survivors, key=lambda s: (len(s), s))` in edith3.py line 96. -/
def keyLe (s t : Str) : Bool :=
  decide (s.length < t.length) || (decide (s.length = t.length) && lexLe s t)

theorem lexLe_refl : ∀ s : Str, lexLe s s = true
  | [] => rfl
  | a :: as => by simp [lexLe, lt_irrefl a, lexLe_refl as]

theorem lexLe_total : ∀ s t : Str, lexLe s t = true ∨ lexLe t s = true
  | [], _ => Or.inl rfl
  | _ :: _, [] => Or.inr rfl
  | a :: as, b :: bs => by
    rcases lt_trichotomy a b with h | h | h
    · exact Or.inl (by simp [lexLe, h])
    · subst h
      rcases lexLe_total as bs with h' | h' <;>
        [exact Or.inl (by simp [lexLe, lt_irrefl a, h']);
         exact Or.inr (by simp [lexLe, lt_irrefl a, h'])]
    · exact Or.inr (by simp [lexLe, h])

theorem lexLe_trans : ∀ s t u : Str,
    lexLe s t = true → lexLe t u = true → lexLe s u = true
  | [], _, _, _, _ => rfl
  | _ :: _, [], _, h, _ => by simp [lexLe] at h
  | _ :: _, _ :: _, [], _, h => by simp [lexLe] at h
  | a :: as, b :: bs, c :: cs, h1, h2 => by
    by_cases hab : a < b
    · by_cases hbc : b < c
      · simp [lexLe, lt_trans hab hbc]
      · by_cases hcb : c < b
        · simp [lexLe, hbc, hcb] at h2
        · have : b = c := le_antisymm (not_lt.mp hcb) (not_lt.mp hbc)
          subst this
          simp [lexLe, hab]
    · by_cases hba : b < a
      · simp [lexLe, hab, hba] at h1
      · have : a = b := le_antisymm (not_lt.mp hba) (not_lt.mp hab)
        subst this
        by_cases hbc : a < c
        · simp [lexLe, hbc]
        · by_cases hcb : c < a
          · simp [lexLe, hbc, hcb] at h2
          · have : a = c := le_antisymm (not_lt.mp hcb) (not_lt.mp hbc)
            subst this
            simp [lexLe, lt_irrefl a] at h1 h2 ⊢
            exact lexLe_trans as bs cs h1 h2

theorem lexLe_antisymm : ∀ s t : Str,
    lexLe s t = true → lexLe t s = true → s = t
  | [], [], _, _ => rfl
  | [], _ :: _, _, h => by simp [lexLe] at h
  | _ :: _, [], h, _ => by simp [lexLe] at h
  | a :: as, b :: bs, h1, h2 => by
    by_cases hab : a < b
    · simp [lexLe, hab, asymm hab] at h2
    · by_cases hba : b < a
      · simp [lexLe, hab, hba] at h1
      · have : a = b := le_antisymm (not_lt.mp hba) (not_lt.mp hab)
        subst this
        simp [lexLe, lt_irrefl a] at h1 h2
        rw [lexLe_antisymm as bs h1 h2]

theorem keyLe_refl (s : Str) : keyLe s s = true := by
  simp [keyLe, lexLe_refl]

theorem keyLe_total (s t : Str) : keyLe s t = true ∨ keyLe t s = true := by
  rcases lt_trichotomy s.length t.length with h | h | h
  · exact Or.inl (by simp [keyLe, h])
  · rcases lexLe_total s t with h' | h' <;>
      [exact Or.inl (by simp [keyLe, h, h']); exact Or.inr (by simp [keyLe, h.symm, h'])]
  · exact Or.inr (by simp [keyLe, h])

theorem keyLe_trans (s t u : Str) (h1 : keyLe s t = true) (h2 : keyLe t u = true) :
    keyLe s u = true := by
  simp only [keyLe, Bool.or_eq_true, Bool.and_eq_true, decide_eq_true_eq] at h1 h2 ⊢
  rcases h1 with h1 | ⟨h1, h1'⟩ <;> rcases h2 with h2 | ⟨h2, h2'⟩
  · exact Or.inl (lt_trans h1 h2)
  · exact Or.inl (h2 ▸ h1)
  · exact Or.inl (h1 ▸ h2)
  · exact Or.inr ⟨h1.trans h2, lexLe_trans s t u h1' h2'⟩

/-- The key order as a `Prop` relation, for `List.insertionSort`. -/
def keyRel (s t : Str) : Prop := keyLe s t = true

instance : DecidableRel keyRel := fun s t => inferInstanceAs (Decidable (keyLe s t = true))

instance : IsTotal Str keyRel := ⟨keyLe_total⟩

instance : IsTrans Str keyRel := ⟨keyLe_trans⟩

/-- The `key=len` order used by `sorted(survivors, key=len)` in edith3.py line 79. -/
def lenRel (s t : Str) : Prop := s.length ≤ t.length

instance : DecidableRel lenRel := fun s t => inferInstanceAs (Decidable (s.length ≤ t.length))

instance : IsTotal Str lenRel := ⟨fun s t => Nat.le_total s.length t.length⟩

instance : IsTrans Str lenRel := ⟨fun _ _ _ h1 h2 => Nat.le_trans h1 h2⟩

/-- edith3.py line 18: `UNFIT = "_unfit"`. -/
def UNFIT : Str := str "_unfit"

/-- A chromosome as produced by `get_fitness`: the accumulated string
(`sequence`, possibly the `UNFIT` marker) together with the residue pair
(`dominance` in the source's vocabulary). -/
abbrev Chrom := Str × (Str × Str)

/-- edith3.py lines 21-30:

```
def get_fitness(sequence, dominance, new_genes):
    a = dominance[0] + new_genes[0]
    b = dominance[1] + new_genes[1]
    if len(a) > 10 * len(sequence):  # Probably diverging.
        return UNFIT, ['', '']
    if a.startswith(b):
        return sequence + b, [a[len(b):], '']
    if b.startswith(a):
        return sequence + a, ['', b[len(a):]]
    return UNFIT, ['', '']
```
-/
def get_fitness (sequence : Str) (dominance : Str × Str) (new_genes : Str × Str) : Chrom :=
  let a := dominance.1 ++ new_genes.1
  let b := dominance.2 ++ new_genes.2
  if a.length > 10 * sequence.length then (UNFIT, ([], []))
  else if List.isPrefixOf b a then (sequence ++ b, (a.drop b.length, []))
  else if List.isPrefixOf a b then (sequence ++ a, ([], b.drop a.length))
  else (UNFIT, ([], []))

/-- edith3.py lines 53-58: the round-0 seeding,
`chromosomes = [get_fitness('', ['', ''], gene) for gene in genes]`.
Note that UNFIT results are NOT filtered out of this list. -/
def chromosomes0 (genes : List (Str × Str)) : List Chrom :=
  genes.map fun gene => get_fitness [] ([], []) gene

/-- The survivor-extraction filter appearing verbatim at edith3.py
lines 61-67 and lines 87-93:
`[c[0] for c in chromosomes if c[0] != UNFIT and not c[1][0] and not c[1][1]]`. -/
def closedOf (chromosomes : List Chrom) : List Str :=
  (chromosomes.filter fun c => !(c.1 == UNFIT) && c.2.1.isEmpty && c.2.2.isEmpty).map
    fun c => c.1

/-- edith3.py lines 61-67: survivors caught "in the origins" (round 0). -/
def survivors0 (genes : List (Str × Str)) : List Str :=
  closedOf (chromosomes0 genes)

/-- edith3.py line 79: `len(sorted(survivors, key=len)[0])`, the length of
the shortest known survivor (0 if there are none; the source only evaluates
this expression when `survivors` is non-empty). -/
def shortestLen (survivors : List Str) : Nat :=
  match List.insertionSort lenRel survivors with
  | [] => 0
  | s :: _ => s.length

/-- edith3.py lines 78-79: the guard
`if not survivors or len(c[0]) < len(sorted(survivors, key=len)[0])`
selecting which chromosomes are expanded in a round. -/
def expandable (survivors : List Str) (c : Chrom) : Bool :=
  survivors.isEmpty || decide (c.1.length < shortestLen survivors)

/-- edith3.py lines 72-81: one round's raw expansion,
`(get_fitness(m[0][0], m[0][1], m[1]) for m in ((c, g) for c in chromosomes
for g in genes if not survivors or len(c[0]) < len(...)))`. -/
def expandRound (genes : List (Str × Str)) (survivors : List Str)
    (chromosomes : List Chrom) : List Chrom :=
  (chromosomes.filter (expandable survivors)).flatMap fun c =>
    genes.map fun g => get_fitness c.1 c.2 g

/-- edith3.py lines 71-93: one age of the loop.  The expansion is filtered
down to non-UNFIT chromosomes (lines 82-86) and the closed ones are appended
to the survivor pool (lines 87-93). -/
def step (genes : List (Str × Str)) (st : List Chrom × List Str) :
    List Chrom × List Str :=
  let chromosomes := (expandRound genes st.2 st.1).filter fun c => !(c.1 == UNFIT)
  (chromosomes, st.2 ++ closedOf chromosomes)

/-- The state (chromosomes, survivors) after the seeding (lines 53-67) and
`n` iterations of the age loop (lines 71-93). -/
def runAges (genes : List (Str × Str)) : Nat → List Chrom × List Str
  | 0 => (chromosomes0 genes, survivors0 genes)
  | n + 1 => step genes (runAges genes n)

/-- edith3.py lines 96-97:
`survivors = sorted(survivors, key=lambda s: (len(s), s))`,
`survivor = survivors[0] if survivors else "IMPOSSIBLE"`,
run after `ages` iterations of the loop. -/
def solve3 (genes : List (Str × Str)) (ages : Nat) : Str :=
  match List.insertionSort keyRel (runAges genes ages).2 with
  | [] => str "IMPOSSIBLE"
  | s :: _ => s

/-- The fusion step as the SPEC words it (section 4.1, "Correct rule ...
unified"), written down only to be compared with `get_fitness`:
if `a == b` close with `built + a`; else if `a` is a proper prefix of `b`
take `built + b` with residue `("", b[len(a):])`; else if `b` is a proper
prefix of `a` take `built + a` with residue `(a[len(b):], "")`; else UNFIT. -/
def specFuse (built : Str) (residue : Str × Str) (pair : Str × Str) : Chrom :=
  let a := residue.1 ++ pair.1
  let b := residue.2 ++ pair.2
  if a = b then (built ++ a, ([], []))
  else if a.isPrefixOf b then (built ++ b, ([], b.drop a.length))
  else if b.isPrefixOf a then (built ++ a, (a.drop b.length, []))
  else (UNFIT, ([], []))

/-! ## The pandas variant (edith.py)

A `Row` is one row of the `Population.chromosomes` DataFrame: the `A` and
`B` columns (the dominance columns are recomputed from them on demand, as
`__calculate_dominance` does before each use). -/

/-- edith.py line 146: `FIT = "_fit"`. -/
def FIT : Str := str "_fit"

/-- One DataFrame row: the `A` and `B` columns. -/
abbrev Row := Str × Str

/-- edith.py lines 251-276, `Population.get_fitness`:

```
a = row.iloc[0]; b = row.iloc[1]
if a == b: return cls.FIT
if a.startswith(b): return a[len(b):]
return cls.UNFIT
```
-/
def pyFitness (a b : Str) : Str :=
  if a = b then FIT
  else if List.isPrefixOf b a then a.drop b.length
  else UNFIT

/-- The `A Dominance` column: `get_fitness` applied to columns `[A, B]`
(edith.py lines 242-245). -/
def aDom (r : Row) : Str := pyFitness r.1 r.2

/-- The `B Dominance` column: `get_fitness` applied to columns `[B, A]`
(edith.py lines 246-249). -/
def bDom (r : Row) : Str := pyFitness r.2 r.1

/-- edith.py lines 287-289: both dominance columns are UNFIT. -/
def isUnfitRow (r : Row) : Bool := (aDom r == UNFIT) && (bDom r == UNFIT)

/-- edith.py lines 307-309: some dominance column is FIT. -/
def isFitRow (r : Row) : Bool := (aDom r == FIT) || (bDom r == FIT)

/-- edith.py lines 209-219, `Population.fit` on the state
`(chromosomes, survivors)`: drop rows with both dominances UNFIT
(`__remove_unfit`), then move rows with a FIT dominance into the survivor
pool (`__remove_fit`). -/
def pyFit (st : List Row × List Row) : List Row × List Row :=
  let kept := st.1.filter fun r => !(isUnfitRow r)
  (kept.filter fun r => !(isFitRow r), st.2 ++ kept.filter isFitRow)

/-- edith.py lines 315-353, `Population.mutate`: the all-NaN-key outer
merge is a cross product of the current chromosomes with the genetic code,
concatenating the `A` and `B` columns. -/
def pyMutate (genes chroms : List Row) : List Row :=
  chroms.flatMap fun c => genes.map fun g => (c.1 ++ g.1, c.2 ++ g.2)

/-- edith.py line 171: the seeding condition
`genes[A].str[0] == genes[B].str[0]` (pandas yields False when either
string is empty, since `NaN == NaN` is False). -/
def pyFirstCharMatch (g : Row) : Bool :=
  match g.1, g.2 with
  | a :: _, b :: _ => a == b
  | _, _ => false

/-- edith.py lines 151-173, `Population.__init__`: keep the gene pairs
whose first characters match, then `fit()`. -/
def pyInit (genes : List Row) : List Row × List Row :=
  pyFit (genes.filter pyFirstCharMatch, [])

/-- edith.py line 405: `shortest_survivor < shortest_chromosome`.  A
pandas `.min()` over an empty column is NaN and `NaN < x` is False, hence
the `none` cases. -/
def pyBreak (st : List Row × List Row) : Bool :=
  match (st.2.map fun r => r.1.length).min?, (st.1.map fun r => r.1.length).min? with
  | some a, some b => decide (a < b)
  | _, _ => false

/-- edith.py lines 397-407, the body of `Sequence.run`'s `for age in
range(self.ages)` loop, instrumented with the number of iterations
actually performed (each iteration is one `mutate` + `fit`). -/
def runLoop (genes : List Row) : Nat → List Row × List Row → (List Row × List Row) × Nat
  | 0, st => (st, 0)
  | n + 1, st =>
    let st' := pyFit (pyMutate genes st.1, st.2)
    if st'.1.isEmpty then (st', 1)
    else if pyBreak st' then (st', 1)
    else ((runLoop genes n st').1, (runLoop genes n st').2 + 1)

/-- edith.py lines 386-409, `Sequence.run`: the loop only runs when the
initial chromosome set is non-empty. -/
def pyRun (genes : List Row) (ages : Nat) : (List Row × List Row) × Nat :=
  let st0 := pyInit genes
  if st0.1.isEmpty then (st0, 0) else runLoop genes ages st0

/-- Row order for `get_survivor`: sort by `(len(A), A)`
(edith.py lines 204-206). -/
def rowKeyRel (r s : Row) : Prop := keyLe r.1 s.1 = true

instance : DecidableRel rowKeyRel := fun r s => inferInstanceAs (Decidable (keyLe r.1 s.1 = true))

/-- edith.py lines 189-207, `Population.get_survivor`: the default when no
survivor exists, else the `A` value of the first row after sorting by
`(len(A), A)`. -/
def pyGetSurvivor (survivors : List Row) (default : Str) : Str :=
  match List.insertionSort rowKeyRel survivors with
  | [] => default
  | r :: _ => r.1

/-- edith.py lines 412-444: run the sequence and print
`get_survivor(Sequence.IMPOSSIBLE)`. -/
def pySolve (genes : List Row) (ages : Nat) : Str :=
  pyGetSurvivor (pyRun genes ages).1.2 (str "IMPOSSIBLE")

/-! ## The stdin parsing model (edith3.py lines 40-58)

Parsing raises plain Python exceptions; there is no `InvalidInputError`
class anywhere in the repository. -/

/-- The Python exceptions the per-case input handling can raise:
`StopIteration` from `next(sys.stdin)` when the declared case length
exceeds the remaining input (edith3.py line 43), and `IndexError` from
`gene[1]` (via `new_genes[1]` in `get_fitness`, line 23) when a gene line
split into fewer than two tokens. -/
inductive PyError where
  | stopIteration : PyError
  | indexError : PyError
deriving DecidableEq

/-- Python's `line.split()`: split on whitespace runs, discarding empty
tokens (edith3.py line 50). -/
def pySplit (s : Str) : List Str :=
  (List.splitOnP (fun c => c.isWhitespace) s).filter fun t => !t.isEmpty

/-- edith3.py lines 42-45: `[next(sys.stdin) for _ in range(case_length)]`
on the remaining input lines; `next` raises `StopIteration` when the input
is exhausted. -/
def takeLines : Nat → List Str → Except PyError (List Str)
  | 0, _ => .ok []
  | _ + 1, [] => .error .stopIteration
  | n + 1, l :: ls => (takeLines n ls).map (l :: ·)

/-- The accesses `gene[0]`, `gene[1]` made for every parsed gene during
round-0 seeding (edith3.py lines 22-23 via 53-58): fewer than two tokens
raises `IndexError`; tokens beyond the second are silently ignored. -/
def geneOf : List Str → Except PyError (Str × Str)
  | t0 :: t1 :: _ => .ok (t0, t1)
  | _ => .error .indexError

/-- Split every case line and take the first two tokens of each. -/
def genesOf : List Str → Except PyError (List (Str × Str))
  | [] => .ok []
  | l :: ls => (geneOf (pySplit l)).bind fun g => (genesOf ls).map (g :: ·)

/-- One case's input handling: read the declared number of lines, then
split each into a gene pair (edith3.py lines 40-58). -/
def readCase (n : Nat) (lines : List Str) : Except PyError (List (Str × Str)) :=
  (takeLines n lines).bind genesOf

/-! ## Helper lemmas -/

/-- `get_fitness` with its `let` bindings expanded, for rewriting. -/
theorem get_fitness_def (sequence : Str) (dominance new_genes : Str × Str) :
    get_fitness sequence dominance new_genes =
      if (dominance.1 ++ new_genes.1).length > 10 * sequence.length then
        (UNFIT, ([], []))
      else if List.isPrefixOf (dominance.2 ++ new_genes.2) (dominance.1 ++ new_genes.1) then
        (sequence ++ (dominance.2 ++ new_genes.2),
         ((dominance.1 ++ new_genes.1).drop (dominance.2 ++ new_genes.2).length, []))
      else if List.isPrefixOf (dominance.1 ++ new_genes.1) (dominance.2 ++ new_genes.2) then
        (sequence ++ (dominance.1 ++ new_genes.1),
         ([], (dominance.2 ++ new_genes.2).drop (dominance.1 ++ new_genes.1).length))
      else (UNFIT, ([], [])) := rfl

/-- A seed fusion (`built = ""`, empty residues) whose gene has a non-empty
first string always hits the divergence guard, because the guard has no
lower floor: `len(a) > 10 * 0`. -/
theorem seed_unfit (g : Str × Str) (h : g.1 ≠ []) :
    get_fitness [] ([], []) g = (UNFIT, ([], [])) := by
  rw [get_fitness_def]
  have : ([] ++ g.1).length > 10 * ([] : Str).length := by
    simpa using List.length_pos.mpr h
  rw [if_pos this]

/-- If every gene's first string is non-empty, the round-0 survivor pool of
edith3.py is empty: every seed chromosome is the UNFIT marker. -/
theorem survivors0_eq_nil (genes : List (Str × Str)) (h : ∀ g ∈ genes, g.1 ≠ []) :
    survivors0 genes = [] := by
  induction genes with
  | nil => rfl
  | cons g gs ih =>
    have hg := seed_unfit g (h g (List.mem_cons_self g gs))
    have hrest := ih fun x hx => h x (List.mem_cons_of_mem g hx)
    simp only [survivors0, chromosomes0, closedOf, List.map_cons, List.filter_cons] at hrest ⊢
    rw [hg]
    simpa using hrest

end Edith

namespace Edith

/-! ## Claim C1 -/

/-- C1 counterexample: at `built = "z"`, residue `("","")`, gene
`("ab","a")` (so `a = "ab"`, `b = "a"`, `b` a proper prefix of `a`), the
code returns `("za", ("b",""))` — it appends the shorter side `b` — while
the spec's unified rule demands `built + a = "zab"`.  The fusion step does
NOT satisfy the spec's rule. -/
theorem c1_spec_rule_counterexample :
    get_fitness (str "z") ([], []) (str "ab", str "a") ≠
      specFuse (str "z") ([], []) (str "ab", str "a") := by decide

/-- C1 amended: with `a = residue.1 ++ pair.1` and `b = residue.2 ++ pair.2`,
provided the divergence guard does not fire (`len(a) ≤ 10 * len(built)`):
if `a == b` the candidate closes with `built' = built + a` and empty
residues; if `a` is a proper prefix of `b` then `built' = built + a` (the
shorter side) with residue `("", b[len(a):])`; if `b` is a proper prefix of
`a` then `built' = built + b` with residue `(a[len(b):], "")`; otherwise
UNFIT. -/
theorem c1_fusion_rule_amended (built : Str) (residue pair : Str × Str)
    (hguard : (residue.1 ++ pair.1).length ≤ 10 * built.length) :
    ((residue.1 ++ pair.1) = (residue.2 ++ pair.2) →
      get_fitness built residue pair = (built ++ (residue.1 ++ pair.1), ([], []))) ∧
    ((residue.1 ++ pair.1) ≠ (residue.2 ++ pair.2) →
      (residue.1 ++ pair.1) <+: (residue.2 ++ pair.2) →
      get_fitness built residue pair =
        (built ++ (residue.1 ++ pair.1),
         ([], (residue.2 ++ pair.2).drop (residue.1 ++ pair.1).length))) ∧
    ((residue.1 ++ pair.1) ≠ (residue.2 ++ pair.2) →
      (residue.2 ++ pair.2) <+: (residue.1 ++ pair.1) →
      get_fitness built residue pair =
        (built ++ (residue.2 ++ pair.2),
         ((residue.1 ++ pair.1).drop (residue.2 ++ pair.2).length, []))) ∧
    (¬ (residue.1 ++ pair.1) <+: (residue.2 ++ pair.2) →
      ¬ (residue.2 ++ pair.2) <+: (residue.1 ++ pair.1) →
      get_fitness built residue pair = (UNFIT, ([], []))) := by
  have hg : ¬ ((residue.1 ++ pair.1).length > 10 * built.length) := not_lt.mpr hguard
  refine ⟨fun heq => ?_, fun hne hpre => ?_, fun hne hpre => ?_, fun h1 h2 => ?_⟩
  · have hba : List.isPrefixOf (residue.2 ++ pair.2) (residue.1 ++ pair.1) = true := by
      simp only [ List.isPrefixOf_iff_prefix]
      rw [heq]
    rw [get_fitness_def, if_neg hg, if_pos hba, heq]
    simp [List.drop_length]
  · have hba : ¬ List.isPrefixOf (residue.2 ++ pair.2) (residue.1 ++ pair.1) = true := by
      simp only [ List.isPrefixOf_iff_prefix]
      exact fun hba =>
        hne (hpre.eq_of_length (Nat.le_antisymm hpre.length_le hba.length_le))
    have hab : List.isPrefixOf (residue.1 ++ pair.1) (residue.2 ++ pair.2) = true := by
      simp only [ List.isPrefixOf_iff_prefix]
      exact hpre
    rw [get_fitness_def, if_neg hg, if_neg hba, if_pos hab]
  · have hba : List.isPrefixOf (residue.2 ++ pair.2) (residue.1 ++ pair.1) = true := by
      simp only [ List.isPrefixOf_iff_prefix]
      exact hpre
    rw [get_fitness_def, if_neg hg, if_pos hba]
  · have hba : ¬ List.isPrefixOf (residue.2 ++ pair.2) (residue.1 ++ pair.1) = true := by
      simp only [ List.isPrefixOf_iff_prefix]
      exact h2
    have hab : ¬ List.isPrefixOf (residue.1 ++ pair.1) (residue.2 ++ pair.2) = true := by
      simp only [ List.isPrefixOf_iff_prefix]
      exact h1
    rw [get_fitness_def, if_neg hg, if_neg hba, if_neg hab]

/-- Witness for C1's amended rule at `built = "z"`, residue `("","")`,
gene `("ab","a")`: the guard passes (2 ≤ 10) and the `b`-proper-prefix
case yields `("z" + "a", ("b", ""))`. -/
theorem c1_fusion_rule_amended_witness :
    get_fitness (str "z") ([], []) (str "ab", str "a") =
      (str "z" ++ (([] : Str) ++ str "a"),
       ((([] : Str) ++ str "ab").drop (([] : Str) ++ str "a").length, [])) :=
  (c1_fusion_rule_amended (str "z") ([], []) (str "ab", str "a") (by decide)).2.2.1
    (by decide) (by decide)

/-! ## Claim C2 -/

/-- C2: the claim says a seed fusion from the empty built string with
`len(a) ≤ 10` is not discarded by the guard (`len(a) > 10 * max(1, len(built))`).
The code has no `max(1, ·)` floor: at `built = ""`, residue `("","")`,
gene `("dear","dear")` we have `len(a) = 4 ≤ 10`, yet `get_fitness`
classifies the step UNFIT because `4 > 10 * 0`. -/
theorem c2_divergence_guard_bug :
    (str "dear").length ≤ 10 ∧
    get_fitness [] ([], []) (str "dear", str "dear") = (UNFIT, ([], [])) :=
  ⟨by decide, by decide⟩

/-! ## Claim C8 -/

/-- C8: for a gene pair with both strings non-empty, any fusion step whose
result is not UNFIT strictly grows the accumulated string: the new built
string is the old one with a non-empty side appended. -/
theorem c8_monotonic_growth (sequence : Str) (dominance new_genes : Str × Str)
    (hA : new_genes.1 ≠ []) (hB : new_genes.2 ≠ [])
    (hfit : (get_fitness sequence dominance new_genes).1 ≠ UNFIT) :
    sequence.length < (get_fitness sequence dominance new_genes).1.length := by
  rw [get_fitness_def] at hfit ⊢
  by_cases h1 : (dominance.1 ++ new_genes.1).length > 10 * sequence.length
  · rw [if_pos h1] at hfit
    exact absurd rfl hfit
  · rw [if_neg h1] at hfit ⊢
    by_cases h2 :
        List.isPrefixOf (dominance.2 ++ new_genes.2) (dominance.1 ++ new_genes.1) = true
    · rw [if_pos h2]
      have hb : 0 < new_genes.2.length := List.length_pos.mpr hB
      simp only [List.length_append]
      omega
    · rw [if_neg h2] at hfit ⊢
      by_cases h3 :
          List.isPrefixOf (dominance.1 ++ new_genes.1) (dominance.2 ++ new_genes.2) = true
      · rw [if_pos h3]
        have ha : 0 < new_genes.1.length := List.length_pos.mpr hA
        simp only [List.length_append]
        omega
      · rw [if_neg h3] at hfit
        exact absurd rfl hfit

/-- Witness for C8 at `sequence = "z"`, residue `("","")`, gene
`("ab","a")`: the result `"za"` is not UNFIT and `1 < 2`. -/
theorem c8_monotonic_growth_witness :
    (str "z").length < (get_fitness (str "z") ([], []) (str "ab", str "a")).1.length :=
  c8_monotonic_growth (str "z") ([], []) (str "ab", str "a")
    (by decide) (by decide) (by decide)

/-! ## Claim C3 -/

/-- C3 counterexample: for the case consisting of the single pair
`("dear","dear")` — whose first string is non-empty — edith3.py does NOT
print IMPOSSIBLE.  The round-0 chromosome list retains the raw
`(UNFIT, ('',''))` tuples, which are expanded in the first age with
`built = "_unfit"`, so the sentinel leaks and the answer is
`"_unfitdear"`. -/
theorem c3_counterexample :
    (∀ g ∈ [(str "dear", str "dear")], g.1 ≠ ([] : Str)) ∧
    solve3 [(str "dear", str "dear")] 8 ≠ str "IMPOSSIBLE" :=
  ⟨by decide, by decide⟩

/-- C3 amended: the guard indeed has no lower floor, so every seed fusion
with a non-empty combined a-side is UNFIT and the round-0 survivor pool is
empty whenever every gene's first string is non-empty; but the UNFIT
marker tuples remain in the round-0 working list and are themselves
expanded in the first mutation round, so the program need not print
IMPOSSIBLE: for the single pair `("dear","dear")` it prints
`"_unfitdear"`. -/
theorem c3_amended :
    (∀ g : Str × Str, g.1 ≠ [] → get_fitness [] ([], []) g = (UNFIT, ([], []))) ∧
    (∀ genes : List (Str × Str), (∀ g ∈ genes, g.1 ≠ []) → survivors0 genes = []) ∧
    solve3 [(str "dear", str "dear")] 8 = str "_unfitdear" :=
  ⟨seed_unfit, survivors0_eq_nil, by decide⟩

/-- Witness for C3's amended statement at the gene `("ab","cd")`. -/
theorem c3_amended_witness :
    get_fitness [] ([], []) (str "ab", str "cd") = (UNFIT, ([], [])) ∧
    survivors0 [(str "ab", str "cd")] = [] :=
  ⟨c3_amended.1 (str "ab", str "cd") (by decide),
   c3_amended.2.1 [(str "ab", str "cd")] (by decide)⟩

/-! ## Claim C4 -/

/-- C4: the claim holds for the pandas variant — for any non-empty `A`,
`edith.py` seeds `[(A, A)]` into a round-0 survivor equal to `A` and
returns `A` — but the no-framework variant contradicts it: its round-0
survivor pool for `[(A, A)]` is always empty (the divergence guard has no
floor), and on the concrete case `("dear","dear")` it answers
`"_unfitdear"` instead of `"dear"`. -/
theorem c4_single_pair_bug (A : Str) (hA : A ≠ []) :
    pySolve [(A, A)] 1 = A ∧
    survivors0 [(A, A)] = [] ∧
    solve3 [(str "dear", str "dear")] 8 = str "_unfitdear" := by
  refine ⟨?_, ?_, by decide⟩
  · obtain ⟨c, cs, rfl⟩ : ∃ c cs, A = c :: cs := by
      cases A with
      | nil => exact absurd rfl hA
      | cons c cs => exact ⟨c, cs, rfl⟩
    have hFU : (FIT == UNFIT) = false := by decide
    have hFF : (FIT == FIT) = true := by decide
    simp only [pySolve, pyRun, pyInit, List.filter_cons, List.filter_nil,
      pyFirstCharMatch, beq_self_eq_true, if_true, pyFit, isUnfitRow, isFitRow,
      aDom, bDom, pyFitness, if_pos rfl, hFU, hFF, Bool.false_and, Bool.and_false,
      Bool.not_false, Bool.true_or, Bool.not_true]
    simp [pyGetSurvivor, List.insertionSort, List.orderedInsert]
  · exact survivors0_eq_nil [(A, A)] fun g hg => by
      rw [List.mem_singleton] at hg
      rw [hg]
      exact hA

/-- Witness for C4 at `A = "dear"`. -/
theorem c4_single_pair_bug_witness :
    pySolve [(str "dear", str "dear")] 1 = str "dear" ∧
    survivors0 [(str "dear", str "dear")] = [] ∧
    solve3 [(str "dear", str "dear")] 8 = str "_unfitdear" :=
  c4_single_pair_bug (str "dear") (by decide)

/-! ## Sorting helper lemmas -/

/-- The head of the `(len, lex)`-sorted survivor list is a member of the
original list and is `keyLe`-below every member. -/
theorem isort_head_min (l : List Str) (s : Str) (rest : List Str)
    (h : List.insertionSort keyRel l = s :: rest) :
    s ∈ l ∧ ∀ x ∈ l, keyLe s x = true := by
  have hperm := List.perm_insertionSort keyRel l
  rw [h] at hperm
  have hsorted := List.sorted_insertionSort keyRel l
  rw [h] at hsorted
  refine ⟨hperm.mem_iff.mp (List.mem_cons_self s rest), fun x hx => ?_⟩
  rcases List.mem_cons.mp (hperm.mem_iff.mpr hx) with rfl | hx'
  · exact keyLe_refl x
  · exact List.rel_of_sorted_cons hsorted x hx'

/-- The final selection of edith3.py lines 96-97, characterised: either
the survivor pool is empty and the answer is IMPOSSIBLE, or the answer is
a pool member that is `keyLe`-minimal. -/
theorem solve3_spec (genes : List (Str × Str)) (ages : Nat) :
    ((runAges genes ages).2 = [] ∧ solve3 genes ages = str "IMPOSSIBLE") ∨
    (solve3 genes ages ∈ (runAges genes ages).2 ∧
      ∀ s ∈ (runAges genes ages).2, keyLe (solve3 genes ages) s = true) := by
  cases h : List.insertionSort keyRel (runAges genes ages).2 with
  | nil =>
    left
    have hperm := List.perm_insertionSort keyRel (runAges genes ages).2
    rw [h] at hperm
    exact ⟨hperm.symm.eq_nil, by simp only [solve3, h]⟩
  | cons s rest =>
    right
    have hs : solve3 genes ages = s := by simp only [solve3, h]
    rw [hs]
    exact isort_head_min _ s rest h

/-- `shortestLen` really is the minimum survivor length: the head of the
`key=len` sort is below every member. -/
theorem shortestLen_min (l : List Str) (s : Str) (hs : s ∈ l) :
    shortestLen l ≤ s.length := by
  cases h : List.insertionSort lenRel l with
  | nil =>
    have hperm := List.perm_insertionSort lenRel l
    rw [h] at hperm
    rw [hperm.symm.eq_nil] at hs
    exact absurd hs (List.not_mem_nil s)
  | cons t rest =>
    have hperm := List.perm_insertionSort lenRel l
    rw [h] at hperm
    have hsorted := List.sorted_insertionSort lenRel l
    rw [h] at hsorted
    have hlen : shortestLen l = t.length := by simp only [shortestLen, h]
    rw [hlen]
    rcases List.mem_cons.mp (hperm.mem_iff.mpr hs) with rfl | hmem
    · exact le_refl _
    · exact List.rel_of_sorted_cons hsorted s hmem

/-! ## Claim C5 -/

/-- C5: if the survivor pool collected after all rounds is non-empty, the
printed answer is a pool member that is minimal first by length and then
lexicographically (`keyLe`); if the pool is empty the answer is
IMPOSSIBLE. -/
theorem c5_tiebreak (genes : List (Str × Str)) (ages : Nat) :
    ((runAges genes ages).2 ≠ [] →
      solve3 genes ages ∈ (runAges genes ages).2 ∧
      ∀ s ∈ (runAges genes ages).2, keyLe (solve3 genes ages) s = true) ∧
    ((runAges genes ages).2 = [] → solve3 genes ages = str "IMPOSSIBLE") := by
  rcases solve3_spec genes ages with ⟨h1, h2⟩ | ⟨h1, h2⟩
  · exact ⟨fun hne => absurd h1 hne, fun _ => h2⟩
  · refine ⟨fun _ => ⟨h1, h2⟩, fun hnil => ?_⟩
    rw [hnil] at h1
    exact absurd h1 (List.not_mem_nil _)

/-- Witness for C5 on the single pair `("dear","dear")` after one round,
whose survivor pool is `["_unfitdear"]`. -/
theorem c5_tiebreak_witness :
    solve3 [(str "dear", str "dear")] 1 ∈ (runAges [(str "dear", str "dear")] 1).2 ∧
    ∀ s ∈ (runAges [(str "dear", str "dear")] 1).2,
      keyLe (solve3 [(str "dear", str "dear")] 1) s = true :=
  (c5_tiebreak [(str "dear", str "dear")] 1).1 (by decide)

/-! ## Claim C6 -/

/-- C6 counterexample, on the pandas variant: `Population.mutate`
(edith.py lines 315-353) has no per-candidate pruning.  With genes
`[("aa","aa"), ("aaab","aaa"), ("cd","bc")]`, init leaves the survivor
`("aa","aa")` (shortest survivor length 2) and the open candidate
`("aaab","aaa")` (built length ≥ 2); yet the first age still expands that
candidate against every gene, and its cross with `("cd","bc")` —
`("aaabcd","aaabc")` — survives `fit` into the next working set.  So in
the cited code a too-long candidate DOES contribute successors. -/
theorem c6_counterexample :
    (pyInit [(str "aa", str "aa"), (str "aaab", str "aaa"), (str "cd", str "bc")]).2 =
      [(str "aa", str "aa")] ∧
    (pyInit [(str "aa", str "aa"), (str "aaab", str "aaa"), (str "cd", str "bc")]).1 =
      [(str "aaab", str "aaa")] ∧
    (str "aa").length ≤ (str "aaab").length ∧
    (str "aaabcd", str "aaabc") ∈
      (pyRun [(str "aa", str "aa"), (str "aaab", str "aaa"), (str "cd", str "bc")] 1).1.1 :=
  ⟨by decide, by decide, by decide, by decide⟩

/-- C6 amended (the pruning holds in the no-framework variant only): once
a survivor exists, a chromosome whose built string is at
least as long as the shortest known survivor fails the expansion guard and
contributes no successors: dropping it from the working set leaves the
round's expansion unchanged.  (`shortestLen` is the minimum pool length,
third conjunct.) -/
theorem c6_pruning (genes : List (Str × Str)) (survivors : List Str)
    (chromosomes : List Chrom) (c : Chrom)
    (h1 : survivors ≠ []) (h2 : shortestLen survivors ≤ c.1.length) :
    expandable survivors c = false ∧
    expandRound genes survivors (c :: chromosomes) =
      expandRound genes survivors chromosomes ∧
    ∀ s ∈ survivors, shortestLen survivors ≤ s.length := by
  have hempty : survivors.isEmpty = false := by
    cases survivors with
    | nil => exact absurd rfl h1
    | cons _ _ => rfl
  have hexp : expandable survivors c = false := by
    simp [expandable, hempty, Nat.not_lt.mpr h2]
  refine ⟨hexp, ?_, fun s hs => shortestLen_min survivors s hs⟩
  simp only [expandRound, List.filter_cons, hexp]
  simp

/-- Witness for C6: with survivor pool `["ab"]`, a chromosome with built
string `"xyz"` (length 3 ≥ 2) is not expanded. -/
theorem c6_pruning_witness :
    expandable [str "ab"] (str "xyz", ([], [])) = false ∧
    expandRound [(str "a", str "b")] [str "ab"] [(str "xyz", ([], []))] =
      expandRound [(str "a", str "b")] [str "ab"] [] ∧
    ∀ s ∈ [str "ab"], shortestLen [str "ab"] ≤ s.length :=
  c6_pruning [(str "a", str "b")] [str "ab"] [] (str "xyz", ([], []))
    (by decide) (by decide)

/-! ## Claim C7 -/

/-- C7 counterexample, on the pandas variant: `__remove_fit` (edith.py
lines 295-313) detects closure by comparing the dominance remainder with
the string sentinel `"_fit"`, which collides with genuine remainders.
For the single pair `("x_fit","x")` the `A` dominance is
`"x_fit"[1:] = "_fit" == FIT`, the row is recorded as a survivor at init,
and solve returns `"x_fit"` — a non-IMPOSSIBLE answer whose unconsumed
overlap `"_fit"` is non-empty.  So in the cited code a non-IMPOSSIBLE
answer need not come from an empty residue pair. -/
theorem c7_counterexample :
    pySolve [(str "x_fit", str "x")] 1 = str "x_fit" ∧
    pyFitness (str "x_fit") (str "x") = FIT ∧
    (str "x_fit").drop (str "x").length ≠ ([] : Str) :=
  ⟨by decide, by decide, by decide⟩

/-- Every string extracted by the survivor filter corresponds to a
chromosome with both residues empty in the filtered list. -/
theorem closedOf_mem (chromosomes : List Chrom) (s : Str)
    (hs : s ∈ closedOf chromosomes) :
    (s, (([] : Str), ([] : Str))) ∈ chromosomes := by
  simp only [closedOf, List.mem_map] at hs
  obtain ⟨c, hc, rfl⟩ := hs
  rw [List.mem_filter] at hc
  obtain ⟨hmem, hcond⟩ := hc
  simp only [Bool.and_eq_true, List.isEmpty_iff] at hcond
  obtain ⟨⟨_, h1⟩, h2⟩ := hcond
  have heq : c = (c.1, (c.2.1, c.2.2)) := rfl
  rw [h1, h2] at heq
  rw [← heq]
  exact hmem

/-- C7 amended (the closure property holds in the no-framework variant
only): every survivor recorded by round `ages` appears, at the round that
recorded it, as a chromosome whose residue pair is `("","")`; hence any
non-IMPOSSIBLE answer of `solve3` does too. -/
theorem c7_survivor_closure (genes : List (Str × Str)) (ages : Nat) :
    (∀ s ∈ (runAges genes ages).2,
      ∃ k, k ≤ ages ∧ (s, (([] : Str), ([] : Str))) ∈ (runAges genes k).1) ∧
    (solve3 genes ages ≠ str "IMPOSSIBLE" →
      ∃ k, k ≤ ages ∧
        (solve3 genes ages, (([] : Str), ([] : Str))) ∈ (runAges genes k).1) := by
  have main : ∀ n, ∀ s ∈ (runAges genes n).2,
      ∃ k, k ≤ n ∧ (s, (([] : Str), ([] : Str))) ∈ (runAges genes k).1 := by
    intro n
    induction n with
    | zero =>
      intro s hs
      exact ⟨0, le_refl 0, closedOf_mem (chromosomes0 genes) s hs⟩
    | succ n ih =>
      intro s hs
      have hsplit : (runAges genes (n + 1)).2 =
          (runAges genes n).2 ++ closedOf ((runAges genes (n + 1)).1) := rfl
      rw [hsplit] at hs
      rcases List.mem_append.mp hs with h | h
      · obtain ⟨k, hk, hmem⟩ := ih s h
        exact ⟨k, Nat.le_succ_of_le hk, hmem⟩
      · exact ⟨n + 1, le_refl _, closedOf_mem _ s h⟩
  refine ⟨main ages, fun hne => ?_⟩
  rcases solve3_spec genes ages with ⟨_, h2⟩ | ⟨h1, _⟩
  · exact absurd h2 hne
  · exact main ages _ h1

/-- Witness for C7: the answer `"_unfitdear"` for `[("dear","dear")]`
after one round was recorded with an empty residue pair. -/
theorem c7_survivor_closure_witness :
    solve3 [(str "dear", str "dear")] 1 ≠ str "IMPOSSIBLE" ∧
    ∃ k, k ≤ 1 ∧
      (solve3 [(str "dear", str "dear")] 1, (([] : Str), ([] : Str))) ∈
        (runAges [(str "dear", str "dear")] k).1 :=
  ⟨by decide, (c7_survivor_closure [(str "dear", str "dear")] 1).2 (by decide)⟩

/-! ## Claim C9 -/

/-- Reading more lines than remain in the input raises `StopIteration`. -/
theorem takeLines_stopIteration : ∀ (n : Nat) (lines : List Str),
    lines.length < n → takeLines n lines = .error .stopIteration
  | 0, _, h => absurd h (Nat.not_lt_zero _)
  | _ + 1, [], _ => rfl
  | n + 1, l :: ls, h => by
    have hlt : ls.length < n := by simpa using h
    simp only [takeLines, takeLines_stopIteration n ls hlt, Except.map]

/-- C9 counterexample: the line `"a b c"` splits into three tokens — not
exactly two — yet the case is read without any error: the third token is
silently dropped and the pair `("a","b")` is fabricated. -/
theorem c9_counterexample :
    (pySplit (str "a b c")).length ≠ 2 ∧
    readCase 1 [str "a b c"] = Except.ok [(str "a", str "b")] :=
  ⟨by decide, rfl⟩

/-- C9 amended: there is no `InvalidInputError` class.  A declared line
count exceeding the available input raises `StopIteration`; a gene line
with fewer than two tokens raises `IndexError` (at the `gene[1]` access
during seeding); and a line with more than two tokens raises nothing —
the extra tokens are silently ignored. -/
theorem c9_amended :
    (∀ (n : Nat) (lines : List Str), lines.length < n →
      readCase n lines = Except.error PyError.stopIteration) ∧
    (∀ line : Str, (pySplit line).length < 2 →
      readCase 1 [line] = Except.error PyError.indexError) ∧
    readCase 1 [str "a b c"] = Except.ok [(str "a", str "b")] := by
  refine ⟨fun n lines h => ?_, fun line h => ?_, rfl⟩
  · simp only [readCase, takeLines_stopIteration n lines h, Except.bind]
  · have hg : geneOf (pySplit line) = .error .indexError := by
      cases hsp : pySplit line with
      | nil => rfl
      | cons t0 ts =>
        cases ts with
        | nil => rfl
        | cons t1 ts' =>
          rw [hsp] at h
          simp only [List.length_cons] at h
          omega
    have ht : takeLines 1 [line] = .ok [line] := rfl
    simp only [readCase, ht, Except.bind, genesOf, hg]

/-- Witness for C9's amended statement. -/
theorem c9_amended_witness :
    readCase 2 [str "x"] = Except.error PyError.stopIteration ∧
    readCase 1 [str "onlyonetoken"] = Except.error PyError.indexError :=
  ⟨c9_amended.1 2 [str "x"] (by decide),
   c9_amended.2.1 (str "onlyonetoken") (by decide)⟩

/-! ## Claim C10 -/

/-- The `Sequence.run` loop performs at most `n` mutate-and-fit
iterations. -/
theorem runLoop_count_le (genes : List Row) : ∀ (n : Nat) (st : List Row × List Row),
    (runLoop genes n st).2 ≤ n
  | 0, _ => le_refl 0
  | n + 1, st => by
    simp only [runLoop]
    by_cases hc1 : (pyFit (pyMutate genes st.1, st.2)).1.isEmpty = true
    · rw [if_pos hc1]
      exact Nat.succ_le_succ (Nat.zero_le n)
    · rw [if_neg hc1]
      by_cases hc2 : pyBreak (pyFit (pyMutate genes st.1, st.2)) = true
      · rw [if_pos hc2]
        exact Nat.succ_le_succ (Nat.zero_le n)
      · rw [if_neg hc2]
        exact Nat.succ_le_succ
          (runLoop_count_le genes n (pyFit (pyMutate genes st.1, st.2)))

/-- C10: both variants are bounded-round searches.  The pandas variant's
`Sequence.run` performs at most `ages` mutation rounds (it may stop early
on an empty working set or a settled survivor), and the no-framework
variant's state after `n` ages is exactly the `n`-fold iterate of the
round step applied to the round-0 seed. -/
theorem c10_termination (genes : List Row) (ages : Nat)
    (h1 : genes ≠ []) (h2 : 0 < ages) :
    (pyRun genes ages).2 ≤ ages ∧
    ∀ n : Nat, runAges genes n =
      (step genes)^[n] (chromosomes0 genes, survivors0 genes) := by
  constructor
  · simp only [pyRun]
    by_cases hst : (pyInit genes).1.isEmpty = true
    · rw [if_pos hst]
      exact Nat.zero_le ages
    · rw [if_neg hst]
      exact runLoop_count_le genes ages (pyInit genes)
  · intro n
    induction n with
    | zero => rfl
    | succ n ih =>
      rw [Function.iterate_succ_apply', ← ih]
      rfl

/-- Witness for C10 on the single pair `("a","a")` with one round. -/
theorem c10_termination_witness :
    (pyRun [(str "a", str "a")] 1).2 ≤ 1 ∧
    ∀ n : Nat, runAges [(str "a", str "a")] n =
      (step [(str "a", str "a")])^[n]
        (chromosomes0 [(str "a", str "a")], survivors0 [(str "a", str "a")]) :=
  c10_termination [(str "a", str "a")] 1 (by decide) (by decide)

end Edith
